import Mathlib

/-!
Shallow embedding of the `write-only` crate: write-only reference and slice
handle types (`WriteOnlyRef`, `VolatileWriteOnlyRef`, `WriteOnlySlice`,
`VolatileWriteOnlySlice`) and their write-capability operations
(`put`, `write`, `put_at`, `write_at`, `put_cloning_from_slice_at`,
`write_cloning_from_slice_at`, `write_copying_from_slice_at`).

Modelling choices:
* The memory addressed by a handle is a `List α` carried inside the handle
  structure; the handle's `len` is the list's length (the source stores the
  length in a field that is never written after construction, and the handle
  addresses exactly `len` elements).
* A Rust value of element type `T` is a pure value of `α`.  `Clone::clone`
  is modelled as producing an equal value (the documented contract of a
  well-formed `Clone`, and literally a bitwise copy for the `Copy` types that
  `write_copying_from_slice_at` requires).
* Destructor (`Drop`) invocations are modelled as an explicit event list:
  every operation reports, in order, the old values whose destructor it ran.
  `*ptr = value` (Rust place assignment) drops the old value then stores the
  new one; `ptr.write(value)` / `ptr.write_volatile(value)` store without
  dropping.
* Panics are explicit: each fallible operation returns a `WriteOutcome`
  holding an `Option Panic` alongside the memory contents after the call
  (unchanged when the call panicked, since every bounds check in the source
  precedes any mutation).  `usize` arithmetic is modelled with Rust's
  checked (overflow-is-an-error) semantics: in particular the subtraction
  `self.len - offset` in `write_copying_from_slice_at` panics when
  `offset > self.len`.
-/

namespace WriteOnly

/-- A panic raised by a safe entry point: either a failed `assert!` bounds
check, or `usize` subtraction underflow (`attempt to subtract with
overflow`). -/
inductive Panic where
  | assertFailed
  | subUnderflow
  deriving Repr, DecidableEq

/-- Result of one call on a handle: whether the call panicked (and how), the
memory contents addressed by the handle after the call returns or unwinds,
and the list of old values whose destructor the call itself ran, in
execution order. -/
structure WriteOutcome (α : Type) where
  panicked : Option Panic
  state : List α
  drops : List α
  deriving Repr, DecidableEq

/-- From `src/reference/non_volatile.rs`: a write-only reference with dropping
non-volatile write access, wrapping one memory location.  The location's
current value is carried in the model. -/
structure WriteOnlyRef (α : Type) where
  data : α
  deriving Repr, DecidableEq

/-- From `impl From<&mut T> for WriteOnlyRef`: safe construction from an
exclusive borrow of an existing value. -/
def WriteOnlyRef.fromMut (value : α) : WriteOnlyRef α :=
  ⟨value⟩

/-- From `impl Put for WriteOnlyRef`: `*self.data = guard` — the place assignment
drops the old value, then moves the new value in.  Returns the handle over
the updated location together with the drop events of the call. -/
def WriteOnlyRef.put (r : WriteOnlyRef α) (guard : α) : WriteOnlyRef α × List α :=
  (⟨guard⟩, [r.data])

/-- From `impl Write for WriteOnlyRef`: `self.data.write(guard)` — stores the new
value without reading or dropping the old one. -/
def WriteOnlyRef.write (r : WriteOnlyRef α) (guard : α) : WriteOnlyRef α × List α :=
  (⟨guard⟩, [])

/-- From `src/reference/volatile.rs`: a write-only reference with non-dropping
volatile write access.  Volatility (no compiler reordering/elision) has no
value-level content in this model; the value semantics match `write`. -/
structure VolatileWriteOnlyRef (α : Type) where
  data : α
  deriving Repr, DecidableEq

/-- From `impl From<&mut T> for VolatileWriteOnlyRef`. -/
def VolatileWriteOnlyRef.fromMut (value : α) : VolatileWriteOnlyRef α :=
  ⟨value⟩

/-- From `impl Write for VolatileWriteOnlyRef`: `self.data.write_volatile(guard)`
— stores the new value without dropping the old one. -/
def VolatileWriteOnlyRef.write (r : VolatileWriteOnlyRef α) (guard : α) :
    VolatileWriteOnlyRef α × List α :=
  (⟨guard⟩, [])

/-- From `src/slice/non_volatile.rs`: a write-only slice with dropping
non-volatile write access over `len` consecutive locations.  The `len`
consecutive elements it addresses are carried as a list. -/
structure WriteOnlySlice (α : Type) where
  data : List α
  deriving Repr, DecidableEq

/-- From `impl From<&mut [T]> for WriteOnlySlice`: safe construction from an
exclusive borrow of an existing sequence; address and length are taken
directly from the sequence. -/
def WriteOnlySlice.fromMut (slice : List α) : WriteOnlySlice α :=
  ⟨slice⟩

/-- From `WriteOnlySlice::len`: returns the stored element count. -/
def WriteOnlySlice.len (s : WriteOnlySlice α) : Nat :=
  s.data.length

/-- From `WriteOnlySlice::is_empty`: `self.len == 0`. -/
def WriteOnlySlice.is_empty (s : WriteOnlySlice α) : Bool :=
  s.len == 0

/-- From `PutAt::put_at_unchecked` for `WriteOnlySlice`:
`*self.data.add(index) = value` — drops the old value at `index`, then moves
the new value in.  (The source declares out-of-range `index` undefined
behavior; the checked callers below only reach this in range.) -/
def WriteOnlySlice.put_at_unchecked (s : WriteOnlySlice α) (index : Nat) (value : α) :
    WriteOutcome α :=
  { panicked := none
    state := s.data.set index value
    drops := (s.data.drop index).take 1 }

/-- From `PutAt::put_at` for `WriteOnlySlice`: `assert!(index < self.len)` then
`put_at_unchecked`. -/
def WriteOnlySlice.put_at (s : WriteOnlySlice α) (index : Nat) (value : α) :
    WriteOutcome α :=
  if index < s.len then
    s.put_at_unchecked index value
  else
    { panicked := some .assertFailed, state := s.data, drops := [] }

/-- From `WriteAt::write_at_unchecked` for `WriteOnlySlice`:
`self.data.add(index).write(value)` — stores without dropping. -/
def WriteOnlySlice.write_at_unchecked (s : WriteOnlySlice α) (index : Nat) (value : α) :
    WriteOutcome α :=
  { panicked := none
    state := s.data.set index value
    drops := [] }

/-- From `WriteAt::write_at` for `WriteOnlySlice`: `assert!(index < self.len)`
then `write_at_unchecked`. -/
def WriteOnlySlice.write_at (s : WriteOnlySlice α) (index : Nat) (value : α) :
    WriteOutcome α :=
  if index < s.len then
    s.write_at_unchecked index value
  else
    { panicked := some .assertFailed, state := s.data, drops := [] }

/-- The effect of `copy_from_nonoverlapping(src, src.len())` at element
offset `offset` on memory holding `data`: the block `src` replaces the
`src.length` elements starting at `offset`. -/
def spliceAt (data : List α) (src : List α) (offset : Nat) : List α :=
  data.take offset ++ src ++ data.drop (offset + src.length)

/-- The element loop of `put_cloning_from_slice_at`: for each `(index, item)`
of `src` in order, `*self.data.add(offset + index) = item.clone()` — drop the
old occupant of slot `offset + index`, then store a clone of `item`.
Returns the final memory and the drop events in execution order. -/
def putCloneLoop (data : List α) (src : List α) (offset : Nat) : List α × List α :=
  match src with
  | [] => (data, [])
  | item :: rest =>
    let old := (data.drop offset).take 1
    let r := putCloneLoop (data.set offset item) rest (offset + 1)
    (r.1, old ++ r.2)

/-- From `PutFromSliceAt::put_cloning_from_slice_at` for `WriteOnlySlice`:
`assert!(offset + src.len() <= self.len)` then the dropping element loop. -/
def WriteOnlySlice.put_cloning_from_slice_at (s : WriteOnlySlice α) (src : List α)
    (offset : Nat) : WriteOutcome α :=
  if offset + src.length ≤ s.len then
    let r := putCloneLoop s.data src offset
    { panicked := none, state := r.1, drops := r.2 }
  else
    { panicked := some .assertFailed, state := s.data, drops := [] }

/-- The element loop of `write_cloning_from_slice_at`: for each
`(index, item)` of `src` in order,
`self.data.add(offset + index).write(item.clone())` — store a clone of
`item` without dropping the old occupant. -/
def writeCloneLoop (data : List α) (src : List α) (offset : Nat) : List α :=
  match src with
  | [] => data
  | item :: rest => writeCloneLoop (data.set offset item) rest (offset + 1)

/-- From `WriteFromSliceAt::write_cloning_from_slice_at` for `WriteOnlySlice`:
`assert!(offset + src.len() <= self.len)` then the non-dropping element
loop. -/
def WriteOnlySlice.write_cloning_from_slice_at (s : WriteOnlySlice α) (src : List α)
    (offset : Nat) : WriteOutcome α :=
  if offset + src.length ≤ s.len then
    { panicked := none, state := writeCloneLoop s.data src offset, drops := [] }
  else
    { panicked := some .assertFailed, state := s.data, drops := [] }

/-- From `WriteFromSliceAt::write_copying_from_slice_at` for `WriteOnlySlice`:
`assert!(src.len() <= self.len - offset)` — the `usize` subtraction
`self.len - offset` is evaluated first and panics with overflow when
`offset > self.len` (checked arithmetic) — then
`self.data.add(offset).copy_from_nonoverlapping(src.as_ptr(), src.len())`,
one bulk block transfer of `src.len()` elements into slots
`offset .. offset + src.len()`. -/
def WriteOnlySlice.write_copying_from_slice_at (s : WriteOnlySlice α) (src : List α)
    (offset : Nat) : WriteOutcome α :=
  if offset ≤ s.len then
    if src.length ≤ s.len - offset then
      { panicked := none
        state := spliceAt s.data src offset
        drops := [] }
    else
      { panicked := some .assertFailed, state := s.data, drops := [] }
  else
    { panicked := some .subUnderflow, state := s.data, drops := [] }

/-- Modelled from the spec: `VolatileWriteOnlySlice` (its source file
`src/slice/volatile.rs` is not in the sources).  Per §2 item 5 and §3 of the
spec it wraps a contiguous run, exposes `len` and an emptiness check, and
mirrors the non-volatile slice at slice granularity but — like the volatile
reference — provides only the non-dropping `Write` capability family
(`write_at`, `write_cloning_from_slice_at`, `write_copying_from_slice_at`),
never `Put`, with volatile store semantics that have no value-level
content in this model. -/
structure VolatileWriteOnlySlice (α : Type) where
  data : List α
  deriving Repr, DecidableEq

/-- Modelled from the spec: safe construction of a `VolatileWriteOnlySlice`
from an exclusive borrow of an existing sequence. -/
def VolatileWriteOnlySlice.fromMut (slice : List α) : VolatileWriteOnlySlice α :=
  ⟨slice⟩

/-- Modelled from the spec: `VolatileWriteOnlySlice::len`. -/
def VolatileWriteOnlySlice.len (s : VolatileWriteOnlySlice α) : Nat :=
  s.data.length

/-- Modelled from the spec: `VolatileWriteOnlySlice::is_empty`. -/
def VolatileWriteOnlySlice.is_empty (s : VolatileWriteOnlySlice α) : Bool :=
  s.len == 0

/-- Modelled from the spec: `write_at` on `VolatileWriteOnlySlice` —
bounds-checked non-dropping volatile store at `index`. -/
def VolatileWriteOnlySlice.write_at (s : VolatileWriteOnlySlice α) (index : Nat)
    (value : α) : WriteOutcome α :=
  if index < s.len then
    { panicked := none, state := s.data.set index value, drops := [] }
  else
    { panicked := some .assertFailed, state := s.data, drops := [] }

/-- Modelled from the spec: `write_cloning_from_slice_at` on
`VolatileWriteOnlySlice` — bounds-checked non-dropping element-by-element
volatile stores of clones of `src` starting at `offset`. -/
def VolatileWriteOnlySlice.write_cloning_from_slice_at (s : VolatileWriteOnlySlice α)
    (src : List α) (offset : Nat) : WriteOutcome α :=
  if offset + src.length ≤ s.len then
    { panicked := none, state := writeCloneLoop s.data src offset, drops := [] }
  else
    { panicked := some .assertFailed, state := s.data, drops := [] }

/-- Modelled from the spec: `write_copying_from_slice_at` on
`VolatileWriteOnlySlice` — bounds-checked bulk block transfer. -/
def VolatileWriteOnlySlice.write_copying_from_slice_at (s : VolatileWriteOnlySlice α)
    (src : List α) (offset : Nat) : WriteOutcome α :=
  if offset ≤ s.len then
    if src.length ≤ s.len - offset then
      { panicked := none
        state := spliceAt s.data src offset
        drops := [] }
    else
      { panicked := some .assertFailed, state := s.data, drops := [] }
  else
    { panicked := some .subUnderflow, state := s.data, drops := [] }

/-- One public call a client can make on a `WriteOnlySlice` handle. -/
inductive SliceCall (α : Type) where
  | lenQuery
  | isEmptyQuery
  | putAt (index : Nat) (value : α)
  | writeAt (index : Nat) (value : α)
  | putCloning (src : List α) (offset : Nat)
  | writeCloning (src : List α) (offset : Nat)
  | writeCopying (src : List α) (offset : Nat)
  deriving Repr, DecidableEq

/-- The value a public call returns to the caller: `len()` returns a count,
`is_empty()` a Boolean, and every write-family call returns unit or panics —
never element data. -/
inductive CallRet where
  | retLen (n : Nat)
  | retEmpty (b : Bool)
  | retUnit (panicked : Option Panic)
  deriving Repr, DecidableEq

/-- Execute one public call on a `WriteOnlySlice`: the caller-visible return
value and the handle afterwards (unchanged if the call panicked). -/
def stepCall (s : WriteOnlySlice α) (c : SliceCall α) : CallRet × WriteOnlySlice α :=
  match c with
  | .lenQuery => (.retLen s.len, s)
  | .isEmptyQuery => (.retEmpty s.is_empty, s)
  | .putAt index value =>
    let o := s.put_at index value
    (.retUnit o.panicked, ⟨o.state⟩)
  | .writeAt index value =>
    let o := s.write_at index value
    (.retUnit o.panicked, ⟨o.state⟩)
  | .putCloning src offset =>
    let o := s.put_cloning_from_slice_at src offset
    (.retUnit o.panicked, ⟨o.state⟩)
  | .writeCloning src offset =>
    let o := s.write_cloning_from_slice_at src offset
    (.retUnit o.panicked, ⟨o.state⟩)
  | .writeCopying src offset =>
    let o := s.write_copying_from_slice_at src offset
    (.retUnit o.panicked, ⟨o.state⟩)

/-- Execute a sequence of public calls, collecting every caller-visible
return value and the final handle. -/
def runCalls (s : WriteOnlySlice α) (cs : List (SliceCall α)) :
    List CallRet × WriteOnlySlice α :=
  match cs with
  | [] => ([], s)
  | c :: rest =>
    let r := stepCall s c
    let rr := runCalls r.2 rest
    (r.1 :: rr.1, rr.2)

/-! ### Helper lemmas about the loops and the splice -/

theorem length_spliceAt {α : Type} (data src : List α) (offset : Nat)
    (h : offset + src.length ≤ data.length) :
    (spliceAt data src offset).length = data.length := by
  simp [spliceAt]
  omega

theorem take_set_of_le {α : Type} (a : α) (l : List α) {m n : Nat} (h : m ≤ n) :
    (l.set n a).take m = l.take m := by
  apply List.ext_getElem?
  intro i
  simp only [List.getElem?_take, List.getElem?_set]
  split
  · rw [if_neg (by omega)]
  · rfl

theorem spliceAt_cons {α : Type} (data : List α) (item : α) (rest : List α)
    (offset : Nat) (hlt : offset < data.length) :
    spliceAt data (item :: rest) offset =
      spliceAt (data.set offset item) rest (offset + 1) := by
  have harith : offset + (item :: rest).length = offset + 1 + rest.length := by
    simp only [List.length_cons]; omega
  rw [spliceAt, spliceAt, harith]
  rw [List.take_succ, List.drop_set_of_lt item data (by omega),
    take_set_of_le item data (Nat.le_refl offset)]
  have hget : (data.set offset item)[offset]? = some item := by
    simp [List.getElem?_set, hlt]
  rw [hget]
  simp

theorem length_writeCloneLoop {α : Type} (src : List α) :
    ∀ (data : List α) (offset : Nat),
      (writeCloneLoop data src offset).length = data.length := by
  induction src with
  | nil => intro data offset; rfl
  | cons item rest ih =>
    intro data offset
    rw [writeCloneLoop, ih]
    simp

theorem writeCloneLoop_eq_spliceAt {α : Type} (src : List α) :
    ∀ (data : List α) (offset : Nat), offset + src.length ≤ data.length →
      writeCloneLoop data src offset = spliceAt data src offset := by
  induction src with
  | nil => intro data offset h; simp [writeCloneLoop, spliceAt]
  | cons item rest ih =>
    intro data offset h
    have hlt : offset < data.length := by
      simp only [List.length_cons] at h; omega
    rw [writeCloneLoop, spliceAt_cons data item rest offset hlt]
    exact ih (data.set offset item) (offset + 1)
      (by simp only [List.length_set, List.length_cons] at h ⊢; omega)

theorem putCloneLoop_fst {α : Type} (src : List α) :
    ∀ (data : List α) (offset : Nat),
      (putCloneLoop data src offset).1 = writeCloneLoop data src offset := by
  induction src with
  | nil => intro data offset; rfl
  | cons item rest ih =>
    intro data offset
    rw [putCloneLoop, writeCloneLoop]
    exact ih (data.set offset item) (offset + 1)

theorem putCloneLoop_snd {α : Type} (src : List α) :
    ∀ (data : List α) (offset : Nat), offset + src.length ≤ data.length →
      (putCloneLoop data src offset).2 = (data.drop offset).take src.length := by
  induction src with
  | nil => intro data offset h; rfl
  | cons item rest ih =>
    intro data offset h
    have hlt : offset < data.length := by
      simp only [List.length_cons] at h; omega
    rw [putCloneLoop]
    simp only
    rw [ih (data.set offset item) (offset + 1)
      (by simp only [List.length_set, List.length_cons] at h ⊢; omega)]
    rw [List.drop_set_of_lt item data (Nat.lt_succ_self offset)]
    simp only [List.length_cons, Nat.succ_eq_add_one]
    rw [show rest.length + 1 = 1 + rest.length from Nat.add_comm rest.length 1]
    rw [List.take_add, List.drop_drop]

theorem getElem?_spliceAt_inside {α : Type} (data src : List α) (offset i : Nat)
    (hoff : offset ≤ data.length) (hi : i < src.length) :
    (spliceAt data src offset)[offset + i]? = src[i]? := by
  have hT : (List.take offset data).length = offset := by
    rw [List.length_take]; omega
  rw [spliceAt, List.append_assoc]
  rw [List.getElem?_append, if_neg (by rw [hT]; omega)]
  rw [hT, Nat.add_sub_cancel_left]
  rw [List.getElem?_append, if_pos hi]

theorem getElem?_spliceAt_outside {α : Type} (data src : List α) (offset j : Nat)
    (hoff : offset ≤ data.length) (hj : j < offset ∨ offset + src.length ≤ j) :
    (spliceAt data src offset)[j]? = data[j]? := by
  have hT : (List.take offset data).length = offset := by
    rw [List.length_take]; omega
  rw [spliceAt, List.append_assoc]
  rcases hj with hj | hj
  · rw [List.getElem?_append, if_pos (by rw [hT]; omega)]
    rw [List.getElem?_take, if_pos hj]
  · rw [List.getElem?_append, if_neg (by rw [hT]; omega)]
    rw [List.getElem?_append, if_neg (by rw [hT]; omega)]
    rw [List.getElem?_drop]
    congr 1
    rw [hT]
    omega

/-! ### Claim theorems -/

/-- Claim C1: for every run handle of length `L`, every source slice `src`
and every `offset`, each bulk operation (`put_cloning_from_slice_at`,
`write_cloning_from_slice_at`, `write_copying_from_slice_at`) panics exactly
when `offset + src.length > L`, and otherwise proceeds without panicking.
In particular this holds for `write_copying_from_slice_at` even when
`offset` itself exceeds `L`: there the checked `usize` subtraction
`self.len - offset` underflows and panics. -/
theorem c1_bulk_panic_iff {α : Type} (s : WriteOnlySlice α) (src : List α)
    (offset : Nat) :
    ((s.put_cloning_from_slice_at src offset).panicked ≠ none ↔
      s.len < offset + src.length)
  ∧ ((s.write_cloning_from_slice_at src offset).panicked ≠ none ↔
      s.len < offset + src.length)
  ∧ ((s.write_copying_from_slice_at src offset).panicked ≠ none ↔
      s.len < offset + src.length) := by
  refine ⟨?_, ?_, ?_⟩
  · rw [WriteOnlySlice.put_cloning_from_slice_at]
    split <;> simp <;> omega
  · rw [WriteOnlySlice.write_cloning_from_slice_at]
    split <;> simp <;> omega
  · rw [WriteOnlySlice.write_copying_from_slice_at]
    split
    · split <;> simp <;> omega
    · simp; omega

/-- Claim C2: for every run handle of length `L` and every index, `put_at`
and `write_at` panic for all `index ≥ L`, and for all `index < L` they
succeed: no panic, and the value is written at `index`. -/
theorem c2_at_panic_iff {α : Type} (s : WriteOnlySlice α) (index : Nat)
    (value : α) :
    ((s.put_at index value).panicked ≠ none ↔ s.len ≤ index)
  ∧ ((s.write_at index value).panicked ≠ none ↔ s.len ≤ index)
  ∧ (index < s.len →
      (s.put_at index value).panicked = none
    ∧ (s.put_at index value).state = s.data.set index value
    ∧ (s.write_at index value).panicked = none
    ∧ (s.write_at index value).state = s.data.set index value) := by
  refine ⟨?_, ?_, ?_⟩
  · rw [WriteOnlySlice.put_at]
    split <;> simp [WriteOnlySlice.put_at_unchecked] <;> omega
  · rw [WriteOnlySlice.write_at]
    split <;> simp [WriteOnlySlice.write_at_unchecked] <;> omega
  · intro h
    rw [WriteOnlySlice.put_at, WriteOnlySlice.write_at, if_pos h, if_pos h]
    simp [WriteOnlySlice.put_at_unchecked, WriteOnlySlice.write_at_unchecked]

/-- Witness for C2 at a concrete input: a 3-element handle, `index = 2`. -/
theorem c2_at_panic_iff_witness :
    ((WriteOnlySlice.put_at ⟨[0, 1, 2]⟩ 2 9).panicked = none
    ∧ (WriteOnlySlice.put_at ⟨[0, 1, 2]⟩ 2 9).state = [0, 1, 9]
    ∧ (WriteOnlySlice.write_at ⟨[0, 1, 2]⟩ 2 9).panicked = none
    ∧ (WriteOnlySlice.write_at ⟨[0, 1, 2]⟩ 2 9).state = [0, 1, 9]) := by
  have h := (c2_at_panic_iff ⟨[0, 1, 2]⟩ 2 9).2.2 (by decide)
  exact ⟨h.1, h.2.1, h.2.2.1, h.2.2.2⟩

/-- Claim C3: drop discipline of the `put` family.  Each operation's drop
events — the destructors the call itself runs, in execution order — are
exactly the old values previously occupying the targeted slots, one per
slot, in increasing index order for the bulk variant.  Nothing else is
dropped by the call: in particular the newly written value is not, and
since these are all the destructor invocations of the call, each old value
is dropped exactly once and strictly before any later teardown of the
container. -/
theorem c3_put_family_drops {α : Type} (r : WriteOnlyRef α) (v : α)
    (s : WriteOnlySlice α) (index offset : Nat) (src : List α)
    (hidx : index < s.len) (hoff : offset + src.length ≤ s.len) :
    (r.put v).2 = [r.data]
  ∧ (s.put_at index v).drops = [s.data.get ⟨index, hidx⟩]
  ∧ (s.put_cloning_from_slice_at src offset).drops =
      (s.data.drop offset).take src.length := by
  refine ⟨rfl, ?_, ?_⟩
  · rw [WriteOnlySlice.put_at, if_pos hidx, WriteOnlySlice.put_at_unchecked]
    have hidx' : index < s.data.length := hidx
    simp only [List.drop_eq_getElem_cons hidx', List.take_succ_cons, List.take_zero]
    rfl
  · rw [WriteOnlySlice.put_cloning_from_slice_at, if_pos hoff]
    exact putCloneLoop_snd src s.data offset hoff

/-- Witness for C3 on the spec's scenario 3 shape: a 5-element handle
holding `[0, 1, 2, 3, 4]`, bulk-putting `[5, 6, 7]` at offset 1 drops
exactly the old occupants `[1, 2, 3]` in increasing index order. -/
theorem c3_put_family_drops_witness :
    ((WriteOnlyRef.put ⟨0⟩ 42).2 = [0]
    ∧ (WriteOnlySlice.put_at ⟨[0, 1, 2]⟩ 1 42).drops = [1]
    ∧ (WriteOnlySlice.put_cloning_from_slice_at ⟨[0, 1, 2, 3, 4]⟩ [5, 6, 7] 1).drops
        = [1, 2, 3]) := by
  have h := c3_put_family_drops (⟨0⟩ : WriteOnlyRef Nat) 42 ⟨[0, 1, 2, 3, 4]⟩
    1 1 [5, 6, 7] (by decide) (by decide)
  have h2 := c3_put_family_drops (⟨0⟩ : WriteOnlyRef Nat) 42 ⟨[0, 1, 2]⟩
    1 0 [] (by decide) (by decide)
  exact ⟨h.1, by rw [h2.2.1]; rfl, by rw [h.2.2]; rfl⟩

/-- Claim C4: the `write` family never runs a destructor.  For `write` on
both reference types and for `write_at`, `write_cloning_from_slice_at` and
`write_copying_from_slice_at`, the call's drop-event list is empty — so
neither the old occupant nor the newly written value is dropped by the
operation itself (this holds whether or not the call panics, hence in
particular whenever it completes without panicking). -/
theorem c4_write_family_no_drops {α : Type} (r : WriteOnlyRef α)
    (vr : VolatileWriteOnlyRef α) (v : α) (s : WriteOnlySlice α)
    (index offset : Nat) (src : List α) :
    (r.write v).2 = []
  ∧ (vr.write v).2 = []
  ∧ (s.write_at index v).drops = []
  ∧ (s.write_cloning_from_slice_at src offset).drops = []
  ∧ (s.write_copying_from_slice_at src offset).drops = [] := by
  refine ⟨rfl, rfl, ?_, ?_, ?_⟩
  · rw [WriteOnlySlice.write_at]
    split
    · rfl
    · rfl
  · rw [WriteOnlySlice.write_cloning_from_slice_at]
    split
    · rfl
    · rfl
  · rw [WriteOnlySlice.write_copying_from_slice_at]
    split
    · split
      · rfl
      · rfl
    · rfl

/-- Claim C5: frame property of the bulk operations.  When
`offset + src.length ≤ len`, all three bulk operations produce the spliced
memory `take offset ++ src ++ drop (offset + src.length)`; that memory has
unchanged length, holds `src[i]` at position `offset + i` for every
`i < src.length`, and agrees with the old memory at every position outside
`[offset, offset + src.length)`. -/
theorem c5_bulk_frame {α : Type} (s : WriteOnlySlice α) (src : List α)
    (offset : Nat) (h : offset + src.length ≤ s.len) :
    (s.put_cloning_from_slice_at src offset).state = spliceAt s.data src offset
  ∧ (s.write_cloning_from_slice_at src offset).state = spliceAt s.data src offset
  ∧ (s.write_copying_from_slice_at src offset).state = spliceAt s.data src offset
  ∧ (spliceAt s.data src offset).length = s.data.length
  ∧ (∀ i, i < src.length → (spliceAt s.data src offset)[offset + i]? = src[i]?)
  ∧ (∀ j, j < offset ∨ offset + src.length ≤ j →
      (spliceAt s.data src offset)[j]? = s.data[j]?) := by
  have h' : offset + src.length ≤ s.data.length := h
  refine ⟨?_, ?_, ?_, length_spliceAt s.data src offset h',
    fun i hi => getElem?_spliceAt_inside s.data src offset i (by omega) hi,
    fun j hj => getElem?_spliceAt_outside s.data src offset j (by omega) hj⟩
  · rw [WriteOnlySlice.put_cloning_from_slice_at, if_pos h]
    simp only
    rw [putCloneLoop_fst, writeCloneLoop_eq_spliceAt src s.data offset h']
  · rw [WriteOnlySlice.write_cloning_from_slice_at, if_pos h]
    exact writeCloneLoop_eq_spliceAt src s.data offset h'
  · rw [WriteOnlySlice.write_copying_from_slice_at,
      if_pos (show offset ≤ s.len from by omega),
      if_pos (show src.length ≤ s.len - offset from by omega)]

/-- Witness for C5 on the spec's scenario 5: writing `[5, 6, 7]` at offset 1
into `[0, 1, 2, 3, 4]` yields `[0, 5, 6, 7, 4]` for each bulk operation. -/
theorem c5_bulk_frame_witness :
    ((WriteOnlySlice.put_cloning_from_slice_at ⟨[0, 1, 2, 3, 4]⟩ [5, 6, 7] 1).state
        = [0, 5, 6, 7, 4]
    ∧ (WriteOnlySlice.write_cloning_from_slice_at ⟨[0, 1, 2, 3, 4]⟩ [5, 6, 7] 1).state
        = [0, 5, 6, 7, 4]
    ∧ (WriteOnlySlice.write_copying_from_slice_at ⟨[0, 1, 2, 3, 4]⟩ [5, 6, 7] 1).state
        = [0, 5, 6, 7, 4]) := by
  have h := c5_bulk_frame (⟨[0, 1, 2, 3, 4]⟩ : WriteOnlySlice Nat) [5, 6, 7] 1
    (by decide)
  exact ⟨by rw [h.1]; rfl, by rw [h.2.1]; rfl, by rw [h.2.2.1]; rfl⟩

/-- Claim C6: fail-fast atomicity.  Whenever an indexed or bulk operation on
a run handle panics (bounds violation), the panic happened before any
mutation: the memory after the unwinding call equals the memory before it,
and no destructor was run. -/
theorem c6_panic_no_mutation {α : Type} (s : WriteOnlySlice α)
    (index offset : Nat) (v : α) (src : List α) :
    ((s.put_at index v).panicked ≠ none →
      (s.put_at index v).state = s.data ∧ (s.put_at index v).drops = [])
  ∧ ((s.write_at index v).panicked ≠ none →
      (s.write_at index v).state = s.data ∧ (s.write_at index v).drops = [])
  ∧ ((s.put_cloning_from_slice_at src offset).panicked ≠ none →
      (s.put_cloning_from_slice_at src offset).state = s.data
    ∧ (s.put_cloning_from_slice_at src offset).drops = [])
  ∧ ((s.write_cloning_from_slice_at src offset).panicked ≠ none →
      (s.write_cloning_from_slice_at src offset).state = s.data
    ∧ (s.write_cloning_from_slice_at src offset).drops = [])
  ∧ ((s.write_copying_from_slice_at src offset).panicked ≠ none →
      (s.write_copying_from_slice_at src offset).state = s.data
    ∧ (s.write_copying_from_slice_at src offset).drops = []) := by
  refine ⟨?_, ?_, ?_, ?_, ?_⟩
  · rw [WriteOnlySlice.put_at]
    split
    · intro hc; exact absurd rfl hc
    · intro _; exact ⟨rfl, rfl⟩
  · rw [WriteOnlySlice.write_at]
    split
    · intro hc; exact absurd rfl hc
    · intro _; exact ⟨rfl, rfl⟩
  · rw [WriteOnlySlice.put_cloning_from_slice_at]
    split
    · intro hc; exact absurd rfl hc
    · intro _; exact ⟨rfl, rfl⟩
  · rw [WriteOnlySlice.write_cloning_from_slice_at]
    split
    · intro hc; exact absurd rfl hc
    · intro _; exact ⟨rfl, rfl⟩
  · rw [WriteOnlySlice.write_copying_from_slice_at]
    split
    · split
      · intro hc; exact absurd rfl hc
      · intro _; exact ⟨rfl, rfl⟩
    · intro _; exact ⟨rfl, rfl⟩

/-- Witness for C6 on the spec's scenario 6: `put_at(10, x)` on a 3-element
handle panics and mutates nothing. -/
theorem c6_panic_no_mutation_witness :
    (WriteOnlySlice.put_at ⟨[0, 1, 2]⟩ 10 42).state = [0, 1, 2]
    ∧ (WriteOnlySlice.put_at ⟨[0, 1, 2]⟩ 10 42).drops = [] := by
  exact (c6_panic_no_mutation (⟨[0, 1, 2]⟩ : WriteOnlySlice Nat) 10 0 42 []).1
    (by decide)

/-- Claim C7: point-update correctness.  `put(v)` / `write(v)` on a scalar
handle leave the single location holding exactly `v`; `put_at(i, v)` /
`write_at(i, v)` with `i < len` leave element `i` holding exactly `v` and
every other element unchanged. -/
theorem c7_point_update {α : Type} (x v : α) (s : WriteOnlySlice α) (i : Nat)
    (h : i < s.len) :
    ((WriteOnlyRef.fromMut x).put v).1.data = v
  ∧ ((WriteOnlyRef.fromMut x).write v).1.data = v
  ∧ ((VolatileWriteOnlyRef.fromMut x).write v).1.data = v
  ∧ (s.put_at i v).state[i]? = some v
  ∧ (s.write_at i v).state[i]? = some v
  ∧ (∀ j, j ≠ i → (s.put_at i v).state[j]? = s.data[j]?)
  ∧ (∀ j, j ≠ i → (s.write_at i v).state[j]? = s.data[j]?) := by
  have h' : i < s.data.length := h
  have hstp : (s.put_at i v).state = s.data.set i v := by
    rw [WriteOnlySlice.put_at, if_pos h]; rfl
  have hstw : (s.write_at i v).state = s.data.set i v := by
    rw [WriteOnlySlice.write_at, if_pos h]; rfl
  refine ⟨rfl, rfl, rfl, ?_, ?_, ?_, ?_⟩
  · rw [hstp]; simp [List.getElem?_set, h']
  · rw [hstw]; simp [List.getElem?_set, h']
  · intro j hj
    rw [hstp]
    simp only [List.getElem?_set]
    rw [if_neg (fun hc => hj hc.symm)]
  · intro j hj
    rw [hstw]
    simp only [List.getElem?_set]
    rw [if_neg (fun hc => hj hc.symm)]

/-- Witness for C7 on the spec's scenarios 1 and 2: `put(42)` over a scalar
byte yields 42; `put_at(2, 42)` over `0..10` sets index 2 to 42 and leaves
index 3 unchanged. -/
theorem c7_point_update_witness :
    ((WriteOnlyRef.fromMut 0).put 42).1.data = 42
  ∧ (WriteOnlySlice.put_at ⟨[0, 1, 2, 3, 4, 5, 6, 7, 8, 9]⟩ 2 42).state[2]? = some 42
  ∧ (WriteOnlySlice.put_at ⟨[0, 1, 2, 3, 4, 5, 6, 7, 8, 9]⟩ 2 42).state[3]? = some 3 := by
  have h := c7_point_update 0 42 (⟨[0, 1, 2, 3, 4, 5, 6, 7, 8, 9]⟩ : WriteOnlySlice Nat)
    2 (by decide)
  exact ⟨h.1, h.2.2.2.1, by rw [h.2.2.2.2.2.1 3 (by decide)]; rfl⟩

/-- Claim C8: `write_copying_from_slice_at` refines
`write_cloning_from_slice_at`.  For element values duplicated by flat copy
(clone = copy, as for `Copy` types), the single block transfer and the
element-by-element loop leave the target memory in the identical final
state, and the two calls agree on whether they panic. -/
theorem c8_copy_refines_clone {α : Type} (s : WriteOnlySlice α) (src : List α)
    (offset : Nat) :
    (s.write_copying_from_slice_at src offset).state =
      (s.write_cloning_from_slice_at src offset).state
  ∧ ((s.write_copying_from_slice_at src offset).panicked = none ↔
      (s.write_cloning_from_slice_at src offset).panicked = none) := by
  have hlen : s.len = s.data.length := rfl
  rw [WriteOnlySlice.write_copying_from_slice_at,
    WriteOnlySlice.write_cloning_from_slice_at]
  by_cases h1 : offset ≤ s.len
  · by_cases h2 : src.length ≤ s.len - offset
    · rw [if_pos h1, if_pos h2, if_pos (show offset + src.length ≤ s.len by omega)]
      exact ⟨(writeCloneLoop_eq_spliceAt src s.data offset (by omega)).symm,
        Iff.rfl⟩
    · rw [if_pos h1, if_neg h2, if_neg (show ¬ offset + src.length ≤ s.len by omega)]
      exact ⟨rfl, by simp⟩
  · rw [if_neg h1, if_neg (show ¬ offset + src.length ≤ s.len by omega)]
    exact ⟨rfl, by simp⟩

/-! ### Length-preservation and observability helpers for call sequences -/

theorem state_length_put_at {α : Type} (s : WriteOnlySlice α) (index : Nat)
    (v : α) : (s.put_at index v).state.length = s.data.length := by
  rw [WriteOnlySlice.put_at]
  split
  · simp [WriteOnlySlice.put_at_unchecked]
  · rfl

theorem state_length_write_at {α : Type} (s : WriteOnlySlice α) (index : Nat)
    (v : α) : (s.write_at index v).state.length = s.data.length := by
  rw [WriteOnlySlice.write_at]
  split
  · simp [WriteOnlySlice.write_at_unchecked]
  · rfl

theorem state_length_put_cloning {α : Type} (s : WriteOnlySlice α)
    (src : List α) (offset : Nat) :
    (s.put_cloning_from_slice_at src offset).state.length = s.data.length := by
  rw [WriteOnlySlice.put_cloning_from_slice_at]
  split
  · simp only
    rw [putCloneLoop_fst]
    exact length_writeCloneLoop src s.data offset
  · rfl

theorem state_length_write_cloning {α : Type} (s : WriteOnlySlice α)
    (src : List α) (offset : Nat) :
    (s.write_cloning_from_slice_at src offset).state.length = s.data.length := by
  rw [WriteOnlySlice.write_cloning_from_slice_at]
  split
  · exact length_writeCloneLoop src s.data offset
  · rfl

theorem state_length_write_copying {α : Type} (s : WriteOnlySlice α)
    (src : List α) (offset : Nat) :
    (s.write_copying_from_slice_at src offset).state.length = s.data.length := by
  have hlen : s.len = s.data.length := rfl
  rw [WriteOnlySlice.write_copying_from_slice_at]
  split
  · split
    · exact length_spliceAt s.data src offset (by omega)
    · rfl
  · rfl

theorem stepCall_len {α : Type} (s : WriteOnlySlice α) (c : SliceCall α) :
    (stepCall s c).2.len = s.len := by
  cases c with
  | lenQuery => rfl
  | isEmptyQuery => rfl
  | putAt index value => exact state_length_put_at s index value
  | writeAt index value => exact state_length_write_at s index value
  | putCloning src offset => exact state_length_put_cloning s src offset
  | writeCloning src offset => exact state_length_write_cloning s src offset
  | writeCopying src offset => exact state_length_write_copying s src offset

theorem runCalls_len {α : Type} (cs : List (SliceCall α)) :
    ∀ s : WriteOnlySlice α, (runCalls s cs).2.len = s.len := by
  induction cs with
  | nil => intro s; rfl
  | cons c rest ih =>
    intro s
    rw [runCalls]
    exact (ih (stepCall s c).2).trans (stepCall_len s c)

theorem panicked_put_at {α : Type} (s : WriteOnlySlice α) (index : Nat) (v : α) :
    (s.put_at index v).panicked =
      if index < s.len then none else some Panic.assertFailed := by
  rw [WriteOnlySlice.put_at]
  split
  · rfl
  · rfl

theorem panicked_write_at {α : Type} (s : WriteOnlySlice α) (index : Nat) (v : α) :
    (s.write_at index v).panicked =
      if index < s.len then none else some Panic.assertFailed := by
  rw [WriteOnlySlice.write_at]
  split
  · rfl
  · rfl

theorem panicked_put_cloning {α : Type} (s : WriteOnlySlice α) (src : List α)
    (offset : Nat) :
    (s.put_cloning_from_slice_at src offset).panicked =
      if offset + src.length ≤ s.len then none else some Panic.assertFailed := by
  rw [WriteOnlySlice.put_cloning_from_slice_at]
  split
  · rfl
  · rfl

theorem panicked_write_cloning {α : Type} (s : WriteOnlySlice α) (src : List α)
    (offset : Nat) :
    (s.write_cloning_from_slice_at src offset).panicked =
      if offset + src.length ≤ s.len then none else some Panic.assertFailed := by
  rw [WriteOnlySlice.write_cloning_from_slice_at]
  split
  · rfl
  · rfl

theorem panicked_write_copying {α : Type} (s : WriteOnlySlice α) (src : List α)
    (offset : Nat) :
    (s.write_copying_from_slice_at src offset).panicked =
      if offset ≤ s.len then
        (if src.length ≤ s.len - offset then none else some Panic.assertFailed)
      else some Panic.subUnderflow := by
  rw [WriteOnlySlice.write_copying_from_slice_at]
  split
  · split
    · rfl
    · rfl
  · rfl

theorem stepCall_noninterference {α : Type} (m1 m2 : List α)
    (h : m1.length = m2.length) (c : SliceCall α) :
    (stepCall ⟨m1⟩ c).1 = (stepCall ⟨m2⟩ c).1 := by
  cases c with
  | lenQuery =>
    simp only [stepCall, WriteOnlySlice.len, h]
  | isEmptyQuery =>
    simp only [stepCall, WriteOnlySlice.is_empty, WriteOnlySlice.len, h]
  | putAt index value =>
    simp only [stepCall, panicked_put_at, WriteOnlySlice.len, h]
  | writeAt index value =>
    simp only [stepCall, panicked_write_at, WriteOnlySlice.len, h]
  | putCloning src offset =>
    simp only [stepCall, panicked_put_cloning, WriteOnlySlice.len, h]
  | writeCloning src offset =>
    simp only [stepCall, panicked_write_cloning, WriteOnlySlice.len, h]
  | writeCopying src offset =>
    simp only [stepCall, panicked_write_copying, WriteOnlySlice.len, h]

theorem runCalls_noninterference {α : Type} (cs : List (SliceCall α)) :
    ∀ m1 m2 : List α, m1.length = m2.length →
      (runCalls ⟨m1⟩ cs).1 = (runCalls ⟨m2⟩ cs).1 := by
  induction cs with
  | nil => intro m1 m2 _; rfl
  | cons c rest ih =>
    intro m1 m2 h
    rw [runCalls, runCalls]
    have hl1 : (stepCall (⟨m1⟩ : WriteOnlySlice α) c).2.data.length = m1.length :=
      stepCall_len ⟨m1⟩ c
    have hl2 : (stepCall (⟨m2⟩ : WriteOnlySlice α) c).2.data.length = m2.length :=
      stepCall_len ⟨m2⟩ c
    have hrest := ih (stepCall (⟨m1⟩ : WriteOnlySlice α) c).2.data
      (stepCall (⟨m2⟩ : WriteOnlySlice α) c).2.data (by omega)
    simp only
    rw [stepCall_noninterference m1 m2 h c]
    congr 1

/-- Claim C9: length stability.  A run handle built safely from a sequence
reports that sequence's element count; `len` is invariant under every
sequence of public operations, panicking ones included; and `is_empty`
holds exactly when `len = 0`. -/
theorem c9_len_invariant {α : Type} (xs : List α) (s : WriteOnlySlice α)
    (cs : List (SliceCall α)) :
    (WriteOnlySlice.fromMut xs).len = xs.length
  ∧ (runCalls s cs).2.len = s.len
  ∧ (s.is_empty = true ↔ s.len = 0) := by
  refine ⟨rfl, runCalls_len cs s, ?_⟩
  simp [WriteOnlySlice.is_empty]

/-- Claim C10: no-read noninterference.  The return value of every public
operation is independent of the element contents stored in the target
memory: over two memories of equal length, any sequence of public calls on
a `WriteOnlySlice` yields identical caller-visible results (counts,
emptiness flags, unit-or-panic outcomes); the scalar handles' operations
produce results determined by the written value alone; and the volatile
slice's queries and panic outcomes likewise agree.  Hence no sequence of
public operations can recover the previous contents of the target
locations. -/
theorem c10_no_read_noninterference {α : Type} (m1 m2 : List α)
    (h : m1.length = m2.length) (cs : List (SliceCall α))
    (r1 r2 : WriteOnlyRef α) (vr1 vr2 : VolatileWriteOnlyRef α) (v : α)
    (index offset : Nat) (src : List α) :
    (runCalls ⟨m1⟩ cs).1 = (runCalls ⟨m2⟩ cs).1
  ∧ (r1.put v).1 = (r2.put v).1
  ∧ (r1.write v).1 = (r2.write v).1
  ∧ (vr1.write v).1 = (vr2.write v).1
  ∧ VolatileWriteOnlySlice.len (⟨m1⟩ : VolatileWriteOnlySlice α) =
      VolatileWriteOnlySlice.len ⟨m2⟩
  ∧ VolatileWriteOnlySlice.is_empty (⟨m1⟩ : VolatileWriteOnlySlice α) =
      VolatileWriteOnlySlice.is_empty ⟨m2⟩
  ∧ (VolatileWriteOnlySlice.write_at ⟨m1⟩ index v).panicked =
      (VolatileWriteOnlySlice.write_at ⟨m2⟩ index v).panicked
  ∧ (VolatileWriteOnlySlice.write_cloning_from_slice_at ⟨m1⟩ src offset).panicked =
      (VolatileWriteOnlySlice.write_cloning_from_slice_at ⟨m2⟩ src offset).panicked
  ∧ (VolatileWriteOnlySlice.write_copying_from_slice_at ⟨m1⟩ src offset).panicked =
      (VolatileWriteOnlySlice.write_copying_from_slice_at ⟨m2⟩ src offset).panicked := by
  refine ⟨runCalls_noninterference cs m1 m2 h, rfl, rfl, rfl, h, ?_, ?_, ?_, ?_⟩
  · simp only [VolatileWriteOnlySlice.is_empty, VolatileWriteOnlySlice.len, h]
  · simp only [VolatileWriteOnlySlice.write_at, VolatileWriteOnlySlice.len, h]
    split
    · rfl
    · rfl
  · simp only [VolatileWriteOnlySlice.write_cloning_from_slice_at,
      VolatileWriteOnlySlice.len, h]
    split
    · rfl
    · rfl
  · simp only [VolatileWriteOnlySlice.write_copying_from_slice_at,
      VolatileWriteOnlySlice.len, h]
    split
    · split
      · rfl
      · rfl
    · rfl

/-- Witness for C10 at concrete inputs: over the equal-length but
differently-valued memories `[7, 8, 9]` and `[0, 0, 0]`, a sequence of
public calls returns identical results. -/
theorem c10_no_read_noninterference_witness :
    (runCalls (⟨[7, 8, 9]⟩ : WriteOnlySlice Nat)
        [.lenQuery, .isEmptyQuery, .putAt 1 5, .writeCopying [4, 4] 3]).1 =
      (runCalls (⟨[0, 0, 0]⟩ : WriteOnlySlice Nat)
        [.lenQuery, .isEmptyQuery, .putAt 1 5, .writeCopying [4, 4] 3]).1 :=
  (c10_no_read_noninterference [7, 8, 9] [0, 0, 0] (by decide)
    [.lenQuery, .isEmptyQuery, .putAt 1 5, .writeCopying [4, 4] 3]
    ⟨0⟩ ⟨1⟩ ⟨0⟩ ⟨1⟩ 0 0 0 []).1

end WriteOnly
